import Mathlib

/-!
Verification of the message-matching and delayed-delivery engine of the
mctp-emulator repository (src/src/MCTPBinding.cpp), as a shallow embedding.

Bytes are modelled as Nat. Emitting a response on the bus
(sendMessageReceivedSignal) is modelled by recording an Emission value.
The delayed-delivery queue (the globals respQueue, timerExpired, delayTimer
and the function processResponse) is modelled as an explicit state machine:
QState holds the pending-response collection, the timerExpired flag and
whether a timer wait is currently scheduled; QEvent is one enqueue from
processMctpCommand, one successful timer tick, one aborted wait
(operation_aborted) or one failed wait (any other error code).

The function processMctpCommand opens and parses the configuration file
req_resp.json on every invocation (lines 152 to 159 of the source), so the
embedding passes the configuration contents as seen at call time as an
explicit Config argument. A configuration lookup that lands on a JSON null
(absent key) iterates zero rules in the source, so rule lookups are total
functions returning a possibly empty list. A rule entry whose request or
response field fails to parse raises a caught json exception and the loop
continues, which RuleEntry.malformed models.
-/

/-- One call of sendMessageReceivedSignal: the message type code, source
endpoint id, message tag, tag-owner flag and response bytes put on the bus. -/
structure Emission where
  msgType : Nat
  srcEid : Nat
  msgTag : Nat
  tagOwner : Bool
  response : List Nat
deriving DecidableEq, Repr

/-- One element of respQueue: a remaining delay in milliseconds paired with
the response data to emit, mirroring the pair of int and tuple in the source. -/
structure PendingResponse where
  remaining : Int
  emission : Emission
deriving DecidableEq, Repr

/-- The tick interval retryTimeMilliSec = 10 of the source. -/
def retryTimeMilliSec : Int := 10

/-- State of the delayed-delivery machinery: the pending collection
respQueue, the global flag timerExpired, and whether an async_wait is
currently outstanding on delayTimer. -/
structure QState where
  respQueue : List PendingResponse
  timerExpired : Bool
  scheduled : Bool
deriving DecidableEq, Repr

/-- Startup state: empty collection, timerExpired = true, no wait scheduled. -/
def initQState : QState := ⟨[], true, false⟩

/-- Events driving the delayed-delivery machinery: an enqueue performed by
the positive-delay branch of processMctpCommand, a timer tick whose callback
runs with no error, a wait ending with operation_aborted, and a wait ending
with any other error code. -/
inductive QEvent where
  | enqueue (p : PendingResponse)
  | tick
  | tickAborted
  | tickError
deriving DecidableEq, Repr

/-- One step of the delayed-delivery machinery, translated from
processResponse (lines 82 to 136) and the enqueue site (lines 266 to 278).
On enqueue the entry is appended and, when timerExpired holds,
processResponse starts a wait and clears timerExpired. On a successful tick
the callback first emits and removes every entry whose remaining delay is
at most 0, in collection order (the remove_if pass); if the collection is
then empty it cancels the timer and sets timerExpired, otherwise it
decrements every surviving entry by retryTimeMilliSec and reschedules. On
operation_aborted the callback returns at once; on any other error it logs
and returns, leaving timerExpired false and nothing scheduled. A tick event
with no wait scheduled cannot fire and is a no-op. -/
def qstep (s : QState) : QEvent → QState × List Emission
  | .enqueue p =>
    let q := s.respQueue ++ [p]
    if s.timerExpired then (⟨q, false, true⟩, [])
    else (⟨q, s.timerExpired, s.scheduled⟩, [])
  | .tick =>
    if s.scheduled then
      let fired := s.respQueue.filter (fun p => decide (p.remaining ≤ 0))
      let kept := s.respQueue.filter (fun p => decide (0 < p.remaining))
      if kept.isEmpty then (⟨[], true, false⟩, fired.map (·.emission))
      else (⟨kept.map (fun p => ⟨p.remaining - retryTimeMilliSec, p.emission⟩),
             false, true⟩, fired.map (·.emission))
    else (s, [])
  | .tickAborted =>
    if s.scheduled then (⟨s.respQueue, s.timerExpired, false⟩, []) else (s, [])
  | .tickError =>
    if s.scheduled then (⟨s.respQueue, s.timerExpired, false⟩, []) else (s, [])

/-- Runs a sequence of events from a given state, collecting all emissions
in order. -/
def qrunFrom (s : QState) : List QEvent → QState × List Emission
  | [] => (s, [])
  | ev :: evs =>
    let step := qstep s ev
    let rest := qrunFrom step.1 evs
    (rest.1, step.2 ++ rest.2)

/-- Runs a sequence of events from the startup state. -/
def qrun (evs : List QEvent) : QState × List Emission :=
  qrunFrom initQState evs

/-- The tick step in the order claimed by the specification: first decrement
every remaining delay by the tick interval, then deliver and remove exactly
the entries whose remaining delay is now at most 0. Stated for comparison
with qstep, which the source defines in the opposite order. -/
def specTick (s : QState) : QState × List Emission :=
  if s.scheduled then
    let dec := s.respQueue.map
      (fun p => PendingResponse.mk (p.remaining - retryTimeMilliSec) p.emission)
    let fired := dec.filter (fun p => decide (p.remaining ≤ 0))
    let kept := dec.filter (fun p => decide (0 < p.remaining))
    if kept.isEmpty then (⟨[], true, false⟩, fired.map (·.emission))
    else (⟨kept, false, true⟩, fired.map (·.emission))
  else (s, [])

/-- Message-type classification, translated from getMessageType
(lines 46 to 80): a switch over the one-byte type code with the string
Unknown as the initial value, hence the fallback for every unlisted code. -/
def getMessageType (msgType : Nat) : String :=
  match msgType with
  | 0x00 => "MctpControl"
  | 0x01 => "PLDM"
  | 0x02 => "NCSI"
  | 0x03 => "Ethernet"
  | 0x04 => "NVMeMgmtMsg"
  | 0x05 => "SPDM"
  | 0x7E => "VDPCI"
  | 0x7F => "VDIANA"
  | _ => "Unknown"

/-- One configured rule: request bytes, response bytes, and the
processing-delay value, which defaults to 0 when the key is absent. -/
structure Rule where
  request : List Nat
  response : List Nat
  processingDelay : Int
deriving DecidableEq, Repr

/-- One element of a configured rule array: either a rule whose request and
response fields parsed, or an entry whose field access raised a json
exception, which the loop in the source skips with continue. -/
inductive RuleEntry where
  | valid (r : Rule)
  | malformed
deriving DecidableEq, Repr

/-- Contents of the configuration file req_resp.json as seen by one call of
processMctpCommand. The field good models whether the ifstream opened the
file successfully. The field topRules gives, for a message-type key such as
PLDM, the configured rule array (empty when the key is absent or the
document failed to parse, since iterating a JSON null or the caught lookup
exception both yield zero matched rules). The field vendorRules gives, for
the VDPCI branch, the rule array keyed by vendor name and then by the
stringified vendor type code. -/
structure Config where
  good : Bool
  topRules : String → List RuleEntry
  vendorRules : String → String → List RuleEntry

/-- The static vendor registry vendorMap of the source: vendor id 0x8086
maps to Intel. -/
def vendorMap : List (Nat × String) := [(0x8086, "Intel")]

/-- Modelled from the spec: the header file libmctp-vdpci.h defining
mctp_vdpci_intel_hdr is not under src/. Per the wire layout of the spec
(section 6) the vendor header is the message-type byte followed by a 2-byte
big-endian vendor identifier, a 1-byte vendor sub-type code and a 1-byte
reserved field, 5 bytes in all, matching the minimum bytes checked by the
validator and the fields the source reads through the struct. -/
def vdpciIntelHdrLen : Nat := 5

/-- Modelled from the spec: the big-endian vendor identifier of the vendor
header, the two bytes after the message-type byte (be16toh in the source). -/
def vdpciVendorId (payload : List Nat) : Nat :=
  payload.getD 1 0 * 256 + payload.getD 2 0

/-- Modelled from the spec: the vendor sub-type code byte of the vendor
header. -/
def vdpciVendorTypeCode (payload : List Nat) : Nat := payload.getD 3 0

/-- Modelled from the spec: the reserved byte of the vendor header. -/
def vdpciReserved (payload : List Nat) : Nat := payload.getD 4 0

/-- Vendor-header validation and rule lookup for a VDPCI payload, translated
from lines 175 to 218 of the source: reject when the payload is shorter than
the vendor header, when the vendor id is not in vendorMap, or when the
vendor resolves to Intel and the reserved byte differs from 0x80; otherwise
return the configured rules for the vendor and sub-type code together with
the raw vendor-header bytes used as the request header. -/
def vdpciLookup (cfg : Config) (payload : List Nat) :
    Option (List RuleEntry × List Nat) :=
  if payload.length < vdpciIntelHdrLen then none
  else
    match List.lookup (vdpciVendorId payload) vendorMap with
    | none => none
    | some vendorString =>
      if vendorString = "Intel" ∧ vdpciReserved payload ≠ 0x80 then none
      else some (cfg.vendorRules vendorString (toString (vdpciVendorTypeCode payload)),
                 payload.take vdpciIntelHdrLen)

/-- Scans a rule array in table order, translated from the loop at
lines 224 to 286: a malformed entry is skipped; for a valid rule the request
header is prepended to the configured request bytes and the result is
compared for byte-for-byte equality with the full payload; the first rule
whose concatenation equals the payload is returned and the scan stops. -/
def findMatchedRule (reqHeader payload : List Nat) :
    List RuleEntry → Option Rule
  | [] => none
  | .malformed :: rest => findMatchedRule reqHeader payload rest
  | .valid r :: rest =>
    if reqHeader ++ r.request = payload then some r
    else findMatchedRule reqHeader payload rest

/-- Observable outcome of one call of processMctpCommand: the responses
emitted synchronously during the call, the pending responses pushed onto
respQueue, and whether the invalid-processing-delay error was logged. -/
structure CmdOutput where
  emitted : List Emission
  enqueued : List PendingResponse
  invalidDelayLogged : Bool
deriving DecidableEq, Repr

/-- Failure of processMctpCommand with an exception that is not caught
inside it: vector.at on an empty payload throws std::out_of_range. -/
inductive CmdError where
  | indexOutOfRange
deriving DecidableEq, Repr

/-- Delay dispatch for a matched rule, translated from lines 255 to 284:
delay 0 emits the response synchronously; delay -1 emits nothing (no
response, infinite delay); a positive delay pushes a PendingResponse holding
the delay and the response data; any other delay logs the
invalid-processing-delay error and emits nothing. -/
def dispatchMatchedRule (msgType srcEid msgTag : Nat) (tagOwner : Bool)
    (r : Rule) : CmdOutput :=
  if r.processingDelay = 0 then
    ⟨[⟨msgType, srcEid, msgTag, tagOwner, r.response⟩], [], false⟩
  else if r.processingDelay = -1 then
    ⟨[], [], false⟩
  else if 0 < r.processingDelay then
    ⟨[], [⟨r.processingDelay, ⟨msgType, srcEid, msgTag, tagOwner, r.response⟩⟩],
     false⟩
  else
    ⟨[], [], true⟩

/-- Scan of a rule array followed by delay dispatch of the first match;
when no rule matches the call logs and returns with nothing emitted. -/
def scanEntries (msgType srcEid msgTag : Nat) (tagOwner : Bool)
    (reqHeader payload : List Nat) (entries : List RuleEntry) : CmdOutput :=
  match findMatchedRule reqHeader payload entries with
  | none => ⟨[], [], false⟩
  | some r => dispatchMatchedRule msgType srcEid msgTag tagOwner r

/-- Inbound-payload handling, translated from processMctpCommand
(lines 142 to 289). The first action is payload.at(0), which throws
out of range for an empty payload, before the configuration file is opened
and before any classification. The source endpoint id is set to the
destination endpoint id of the call, the message tag to 0 and the tag-owner
flag to false. If the configuration file cannot be opened the call returns
with nothing emitted. A VDPCI payload goes through vdpciLookup, whose
rejection drops the message silently; every other message type uses the
configured rules for its type name with the single message-type byte as the
request header. -/
def processMctpCommand (cfg : Config) (dstEid : Nat) (payload : List Nat) :
    Except CmdError CmdOutput :=
  match payload with
  | [] => .error .indexOutOfRange
  | msgType :: _ =>
    let srcEid := dstEid
    let msgTag := 0
    let tagOwner := false
    if cfg.good = false then .ok ⟨[], [], false⟩
    else
      let messageType := getMessageType msgType
      if messageType = "VDPCI" then
        match vdpciLookup cfg payload with
        | none => .ok ⟨[], [], false⟩
        | some lk =>
          .ok (scanEntries msgType srcEid msgTag tagOwner lk.2 payload lk.1)
      else
        .ok (scanEntries msgType srcEid msgTag tagOwner [msgType] payload
              (cfg.topRules messageType))

/-! ### Concrete configurations and data used by witnesses and counterexamples -/

/-- A sample emission used in concrete queue scenarios. -/
def emX : Emission := ⟨1, 8, 0, false, [170]⟩

/-- A configuration whose PLDM table holds one rule: request body [2]
(full request [1, 2] with the message-type byte), response [170], delay 0. -/
def cfgA : Config :=
  ⟨true, fun s => if s = "PLDM" then [RuleEntry.valid ⟨[2], [170], 0⟩] else [],
   fun _ _ => []⟩

/-- A configuration with no rules at all, as after the file is emptied. -/
def cfgB : Config := ⟨true, fun _ => [], fun _ _ => []⟩

/-! ### Claims -/

set_option maxRecDepth 8000

/-- Claim C9: the classifier is total on byte values with Unknown as the
fallback and no error path, and the eight documented fixed mappings hold:
0x00 Control, 0x01 PLDM, 0x02 NetworkSideband, 0x03 Ethernet,
0x04 StorageMgmt, 0x05 SecurityProtocol, 0x7E VendorPCI, 0x7F VendorIANA,
under the names the source uses for these categories. -/
theorem C9_classifier_total :
    (∀ b : Fin 256, getMessageType b.val ∈
      ["MctpControl", "PLDM", "NCSI", "Ethernet", "NVMeMgmtMsg", "SPDM",
       "VDPCI", "VDIANA", "Unknown"])
  ∧ getMessageType 0x00 = "MctpControl"
  ∧ getMessageType 0x01 = "PLDM"
  ∧ getMessageType 0x02 = "NCSI"
  ∧ getMessageType 0x03 = "Ethernet"
  ∧ getMessageType 0x04 = "NVMeMgmtMsg"
  ∧ getMessageType 0x05 = "SPDM"
  ∧ getMessageType 0x7E = "VDPCI"
  ∧ getMessageType 0x7F = "VDIANA"
  ∧ (∀ b : Fin 256, getMessageType b.val = "Unknown" ∨
      b.val ∈ [0x00, 0x01, 0x02, 0x03, 0x04, 0x05, 0x7E, 0x7F]) := by
  refine ⟨?_, rfl, rfl, rfl, rfl, rfl, rfl, rfl, rfl, ?_⟩ <;> decide

/-- Claim C8: an empty inbound payload makes payload.at(0) throw out of
range before the configuration is opened and before any classification,
matching or silent drop; the call fails for every configuration and
destination endpoint id instead of dropping silently. -/
theorem C8_empty_payload_throws (cfg : Config) (dstEid : Nat) :
    processMctpCommand cfg dstEid [] = .error .indexOutOfRange := rfl

/-- Claim C5: a rule is selected exactly when the request header
concatenated with its configured request body equals the full payload
byte for byte; a single-rule table matches if and only if the concatenation
equals the payload, the full request [1, 2] does not match payload
[1, 2, 3] nor payload [1] but matches [1, 2], and the same holds through
processMctpCommand with the PLDM header byte. -/
theorem C5_exact_match (reqHeader payload : List Nat)
    (entries : List RuleEntry) (r : Rule) :
    (findMatchedRule reqHeader payload entries = some r →
       reqHeader ++ r.request = payload)
  ∧ (findMatchedRule reqHeader payload [RuleEntry.valid r] = some r ↔
       reqHeader ++ r.request = payload)
  ∧ findMatchedRule [] [1, 2, 3] [RuleEntry.valid ⟨[1, 2], [170], 0⟩] = none
  ∧ findMatchedRule [] [1] [RuleEntry.valid ⟨[1, 2], [170], 0⟩] = none
  ∧ findMatchedRule [] [1, 2] [RuleEntry.valid ⟨[1, 2], [170], 0⟩] =
      some ⟨[1, 2], [170], 0⟩
  ∧ processMctpCommand cfgA 8 [1, 2] = .ok ⟨[⟨1, 8, 0, false, [170]⟩], [], false⟩
  ∧ processMctpCommand cfgA 8 [1, 2, 3] = .ok ⟨[], [], false⟩
  ∧ processMctpCommand cfgA 8 [1] = .ok ⟨[], [], false⟩ := by
  refine ⟨?_, ?_, by decide, by decide, by decide, rfl, rfl, rfl⟩
  · induction entries with
    | nil => intro h; simp [findMatchedRule] at h
    | cons e rest ih =>
      cases e with
      | malformed => simpa [findMatchedRule] using ih
      | valid q =>
        by_cases hq : reqHeader ++ q.request = payload
        · intro h
          simp only [findMatchedRule, if_pos hq, Option.some.injEq] at h
          subst h; exact hq
        · intro h
          simp only [findMatchedRule, if_neg hq] at h
          exact ih h
  · by_cases hq : reqHeader ++ r.request = payload
    · simp [findMatchedRule, hq]
    · simp [findMatchedRule, hq]

/-- Claim C5 witness: the single-rule table with request body [2] and
header [1] matched against payload [1, 2] is selected, and the theorem
yields the concatenation equality at that concrete input. -/
theorem C5_exact_match_witness : [1] ++ [2] = [1, 2] :=
  (C5_exact_match [1] [1, 2] [RuleEntry.valid ⟨[2], [170], 0⟩]
    ⟨[2], [170], 0⟩).1 rfl

/-- Claim C6: among all rules whose concatenated request equals the payload,
the scan always selects the earliest one in table order and stops there:
whatever follows the first matching rule, including further rules with the
same request bytes, never changes the result, and the result is a pure
function of the table, header and payload, hence identical across runs. -/
theorem C6_first_match_wins (pre post : List RuleEntry) (r : Rule)
    (reqHeader payload : List Nat)
    (hmatch : reqHeader ++ r.request = payload)
    (hpre : ∀ q, RuleEntry.valid q ∈ pre → reqHeader ++ q.request ≠ payload) :
    findMatchedRule reqHeader payload (pre ++ RuleEntry.valid r :: post) =
      some r := by
  induction pre with
  | nil => simp [findMatchedRule, hmatch]
  | cons e rest ih =>
    cases e with
    | malformed =>
      simpa [findMatchedRule] using
        ih (fun q hq => hpre q (List.mem_cons_of_mem _ hq))
    | valid q =>
      have hne : reqHeader ++ q.request ≠ payload :=
        hpre q (List.mem_cons_self _ _)
      simp only [List.cons_append, findMatchedRule, if_neg hne]
      exact ih (fun q hq => hpre q (List.mem_cons_of_mem _ hq))

/-- Claim C6 witness: two rules with identical request bytes [2] and
different responses; the earlier rule (response [170]) is selected. -/
theorem C6_first_match_wins_witness :
    findMatchedRule [1] [1, 2]
      [RuleEntry.valid ⟨[2], [170], 0⟩, RuleEntry.valid ⟨[2], [187], 0⟩] =
      some ⟨[2], [170], 0⟩ :=
  C6_first_match_wins [] [RuleEntry.valid ⟨[2], [187], 0⟩] ⟨[2], [170], 0⟩
    [1] [1, 2] rfl (fun _ hq => absurd hq (List.not_mem_nil _))

/-- Claim C2 counterexample: processMctpCommand reads the configuration file
on every call (lines 152 to 159), so the match result for the same payload
[1, 2] differs between a call made while the file holds the PLDM rule of
cfgA and a call made after the file was changed to the empty table cfgB;
the claimed run-insensitivity to post-startup file changes is false. -/
theorem C2_counterexample :
    processMctpCommand cfgA 8 [1, 2] ≠ processMctpCommand cfgB 8 [1, 2] := by
  intro h
  rw [show processMctpCommand cfgA 8 [1, 2] =
        .ok ⟨[⟨1, 8, 0, false, [170]⟩], [], false⟩ from rfl,
      show processMctpCommand cfgB 8 [1, 2] = .ok ⟨[], [], false⟩ from rfl] at h
  simp at h

/-- Claim C2 amended: the configuration document is opened and parsed anew
inside processMctpCommand on every inbound payload, so the match result is a
function of the file contents at handling time: with the PLDM rule present
the payload [1, 2] gets the configured response, and with the table emptied
the same payload gets none. -/
theorem C2_config_read_per_call :
    processMctpCommand cfgA 8 [1, 2] =
      .ok ⟨[⟨1, 8, 0, false, [170]⟩], [], false⟩
  ∧ processMctpCommand cfgB 8 [1, 2] = .ok ⟨[], [], false⟩ := ⟨rfl, rfl⟩

/-- Claim C7: a VDPCI payload (type byte 0x7E) that is shorter than the
vendor header, or whose big-endian vendor identifier is not in vendorMap,
or whose vendor resolves to Intel with a reserved byte other than 0x80, is
dropped silently: the call returns normally with nothing emitted, nothing
enqueued and no error logged, for every configuration and destination. -/
theorem C7_vendor_rejection (cfg : Config) (dstEid : Nat) (rest : List Nat)
    (h : (126 :: rest).length < vdpciIntelHdrLen
       ∨ List.lookup (vdpciVendorId (126 :: rest)) vendorMap = none
       ∨ (List.lookup (vdpciVendorId (126 :: rest)) vendorMap = some "Intel"
           ∧ vdpciReserved (126 :: rest) ≠ 0x80)) :
    processMctpCommand cfg dstEid (126 :: rest) = .ok ⟨[], [], false⟩ := by
  have hnone : vdpciLookup cfg (126 :: rest) = none := by
    unfold vdpciLookup
    by_cases hlen : (126 :: rest).length < vdpciIntelHdrLen
    · rw [if_pos hlen]
    · rw [if_neg hlen]
      rcases h with h1 | h2 | h3
      · exact absurd h1 hlen
      · rw [h2]
      · rw [h3.1]
        exact if_pos ⟨rfl, h3.2⟩
  have hmt : getMessageType 126 = "VDPCI" := rfl
  cases hg : cfg.good with
  | false => simp [processMctpCommand, hg]
  | true => simp [processMctpCommand, hg, hmt, hnone]

/-- Claim C7 witness: vendor id 0x8086 resolves to Intel but the reserved
byte is 0, so the payload is dropped with nothing emitted. -/
theorem C7_vendor_rejection_witness :
    processMctpCommand cfgB 8 [126, 128, 134, 1, 0] = .ok ⟨[], [], false⟩ :=
  C7_vendor_rejection cfgB 8 [128, 134, 1, 0]
    (Or.inr (Or.inr ⟨rfl, by decide⟩))

/-! ### Queue lemmas -/

/-- Ticks in the drained idle state do nothing: no wait is scheduled, so no
callback can fire. -/
theorem qrunFrom_idle (n : Nat) :
    qrunFrom ⟨[], true, false⟩ (List.replicate n .tick) =
      (⟨[], true, false⟩, []) := by
  induction n with
  | zero => rfl
  | succ n ih => simpa [List.replicate_succ, qrunFrom, qstep] using ih

/-- A single entry whose stored delay is already nonpositive fires on the
next tick, draining the queue; later ticks are no-ops. -/
theorem qrunFrom_single_nonpos (n : Nat) (d : Int) (em : Emission)
    (hd : d ≤ 0) :
    qrunFrom ⟨[⟨d, em⟩], false, true⟩ (List.replicate n .tick) =
      if 1 ≤ n then (⟨[], true, false⟩, [em])
      else (⟨[⟨d, em⟩], false, true⟩, []) := by
  cases n with
  | zero => simp [qrunFrom]
  | succ n =>
    have hstep : qstep ⟨[⟨d, em⟩], false, true⟩ .tick =
        (⟨[], true, false⟩, [em]) := by
      simp [qstep, List.filter_cons, hd, not_lt.mpr hd]
    rw [List.replicate_succ]
    simp only [qrunFrom, hstep, qrunFrom_idle n]
    rw [if_pos (Nat.succ_le_succ (Nat.zero_le n))]
    simp

/-- A single entry with positive stored delay survives each tick while its
stored value is positive, losing 10 per tick, and fires on the first tick
where its stored value has become nonpositive: with n ticks it has fired
exactly when d + 10 is at most 10 n. -/
theorem qrunFrom_single_pos (n : Nat) (d : Int) (em : Emission)
    (hd : 0 < d) :
    qrunFrom ⟨[⟨d, em⟩], false, true⟩ (List.replicate n .tick) =
      if d + 10 ≤ 10 * (n : Int) then (⟨[], true, false⟩, [em])
      else (⟨[⟨d - 10 * (n : Int), em⟩], false, true⟩, []) := by
  induction n generalizing d with
  | zero =>
    rw [if_neg (by push_cast; omega)]
    simp [qrunFrom]
  | succ n ih =>
    have hstep : qstep ⟨[⟨d, em⟩], false, true⟩ .tick =
        (⟨[⟨d - 10, em⟩], false, true⟩, []) := by
      simp [qstep, List.filter_cons, retryTimeMilliSec, not_le.mpr hd, hd]
    rw [List.replicate_succ]
    simp only [qrunFrom, hstep]
    by_cases hd10 : 0 < d - 10
    · rw [ih (d - 10) hd10]
      by_cases hcond : d - 10 + 10 ≤ 10 * (n : Int)
      · rw [if_pos hcond, if_pos (by push_cast; omega)]
        simp
      · rw [if_neg hcond, if_neg (by push_cast; omega)]
        have harith : d - 10 - 10 * (n : Int) = d - 10 * ((n + 1 : Nat) : Int) := by
          push_cast; ring
        simp [harith]
    · have hle : d - 10 ≤ 0 := by omega
      rw [qrunFrom_single_nonpos n (d - 10) em hle]
      by_cases h1 : 1 ≤ n
      · rw [if_pos h1, if_pos (by push_cast; omega)]
        simp
      · have hn : n = 0 := by omega
        subst hn
        rw [if_neg (by omega), if_neg (by push_cast; omega)]
        have harith : d - 10 - 10 * ((0 : Nat) : Int) = d - 10 := by
          push_cast; ring
        simp [harith]

/-- Claim C1 counterexample: the state reached by enqueuing one entry with
delay 10 is active with stored delay 10; the source tick (qstep) emits
nothing on the next tick and keeps the entry at delay 0, while the
decrement-then-deliver tick the claim describes (specTick) would deliver it
on that tick. The source delivers before decrementing, not after. -/
theorem C1_counterexample :
    qstep (qrun [QEvent.enqueue ⟨10, emX⟩]).1 .tick ≠
      specTick (qrun [QEvent.enqueue ⟨10, emX⟩]).1
  ∧ (qstep (qrun [QEvent.enqueue ⟨10, emX⟩]).1 .tick).2 = []
  ∧ (specTick (qrun [QEvent.enqueue ⟨10, emX⟩]).1).2 = [emX] := by
  refine ⟨by decide, rfl, rfl⟩

/-- Claim C1 amended: on each tick in the Active state the queue first
delivers, in collection order, exactly the entries whose remaining delay is
at most 0, removing them from the collection (entries reaching expiry
together are all delivered on that tick), and only then decrements every
surviving entry by the tick interval 10. -/
theorem C1_tick_delivers_then_decrements (s : QState)
    (h : s.scheduled = true) :
    (qstep s .tick).2 =
      (s.respQueue.filter (fun p => decide (p.remaining ≤ 0))).map (·.emission)
  ∧ (qstep s .tick).1.respQueue =
      (s.respQueue.filter (fun p => decide (0 < p.remaining))).map
        (fun p => ⟨p.remaining - retryTimeMilliSec, p.emission⟩) := by
  simp only [qstep, h, if_true]
  by_cases hk : s.respQueue.filter (fun p => decide (0 < p.remaining)) = []
  · simp [hk]
  · simp [hk, List.isEmpty_iff]

/-- Claim C1 witness: the amended tick characterization evaluated at the
concrete active state holding one entry with remaining delay 10. -/
theorem C1_tick_delivers_then_decrements_witness :
    (qstep ⟨[⟨10, emX⟩], false, true⟩ .tick).2 =
      (([⟨10, emX⟩] : List PendingResponse).filter
        (fun p => decide (p.remaining ≤ 0))).map (·.emission)
  ∧ (qstep ⟨[⟨10, emX⟩], false, true⟩ .tick).1.respQueue =
      (([⟨10, emX⟩] : List PendingResponse).filter
        (fun p => decide (0 < p.remaining))).map
        (fun p => ⟨p.remaining - retryTimeMilliSec, p.emission⟩) :=
  C1_tick_delivers_then_decrements ⟨[⟨10, emX⟩], false, true⟩ rfl

/-- An event of normal operation: an enqueue or a successful tick, as
opposed to an aborted or failed timer wait. -/
def normalEvent : QEvent → Bool
  | .enqueue _ => true
  | .tick => true
  | .tickAborted => false
  | .tickError => false

/-- The coupled timer invariant: a wait is scheduled exactly when the
pending collection is non-empty, and the timerExpired flag mirrors the
absence of a scheduled wait. -/
def timerInv (s : QState) : Prop :=
  (s.scheduled = true ↔ s.respQueue ≠ []) ∧ s.timerExpired = !s.scheduled

/-- One normal-operation step preserves the timer invariant. -/
theorem qstep_preserves_timerInv (s : QState) (ev : QEvent)
    (hs : timerInv s) (hev : normalEvent ev = true) :
    timerInv (qstep s ev).1 := by
  rcases hs with ⟨h1, h2⟩
  cases ev with
  | enqueue p =>
    by_cases ht : s.timerExpired
    · simp [qstep, ht, timerInv]
    · have hsch : s.scheduled = true := by
        cases hsch : s.scheduled with
        | true => rfl
        | false => rw [hsch] at h2; simp at h2; exact absurd h2 ht
      simp [qstep, ht, timerInv, hsch, h2, h1.mp hsch]
  | tick =>
    by_cases hsch : s.scheduled = true
    · simp only [qstep, hsch, if_true]
      by_cases hk : s.respQueue.filter (fun p => decide (0 < p.remaining)) = []
      · simp [hk, timerInv]
      · simp [hk, List.isEmpty_iff, timerInv]
    · simp only [qstep]
      rw [if_neg hsch]
      exact ⟨h1, h2⟩
  | tickAborted => simp [normalEvent] at hev
  | tickError => simp [normalEvent] at hev

/-- Running any sequence of normal-operation events preserves the timer
invariant. -/
theorem qrunFrom_preserves_timerInv (evs : List QEvent) (s : QState)
    (hs : timerInv s) (hevs : ∀ ev ∈ evs, normalEvent ev = true) :
    timerInv (qrunFrom s evs).1 := by
  induction evs generalizing s with
  | nil => exact hs
  | cons ev rest ih =>
    have h1 := qstep_preserves_timerInv s ev hs (hevs ev (List.mem_cons_self _ _))
    have h2 : (qrunFrom s (ev :: rest)).1 = (qrunFrom (qstep s ev).1 rest).1 := rfl
    rw [h2]
    exact ih (qstep s ev).1 h1 (fun e he => hevs e (List.mem_cons_of_mem _ he))

/-- Claim C3 counterexample: after one enqueue and one failed timer wait,
the reachable state has a non-empty pending collection but no scheduled
wait, and timerExpired is still false, so even a later enqueue would not
restart the timer; the invariant fails once timer errors are in the event
alphabet, as the failure semantics of the source prescribe (the error
branch of the callback just logs and returns). -/
theorem C3_counterexample :
    (qrun [QEvent.enqueue ⟨10, emX⟩, QEvent.tickError]).1.respQueue ≠ []
  ∧ (qrun [QEvent.enqueue ⟨10, emX⟩, QEvent.tickError]).1.scheduled = false
  ∧ (qrun [QEvent.enqueue ⟨10, emX⟩, QEvent.tickError]).1.timerExpired = false := by
  decide

/-- Claim C3 amended: in every state reachable by enqueue operations and
successful timer ticks alone (no timer errors and no cancellations), the
timer is scheduled exactly when the pending collection is non-empty; a
timer error or a cancellation can leave pending entries with no active
timer. -/
theorem C3_timer_active_iff_nonempty (evs : List QEvent)
    (hevs : ∀ ev ∈ evs, normalEvent ev = true) :
    ((qrun evs).1.scheduled = true ↔ (qrun evs).1.respQueue ≠ []) :=
  (qrunFrom_preserves_timerInv evs initQState ⟨by simp [initQState], rfl⟩ hevs).1

/-- Claim C3 witness: the amended invariant evaluated on the trace that
enqueues one delayed entry and ticks twice, delivering it and draining the
queue back to idle. -/
theorem C3_timer_active_iff_nonempty_witness :
    ((qrun [QEvent.enqueue ⟨10, emX⟩, QEvent.tick, QEvent.tick]).1.scheduled = true ↔
      (qrun [QEvent.enqueue ⟨10, emX⟩, QEvent.tick, QEvent.tick]).1.respQueue ≠ []) :=
  C3_timer_active_iff_nonempty [QEvent.enqueue ⟨10, emX⟩, QEvent.tick, QEvent.tick]
    (by decide)

/-- Claim C4: delay semantics of a matched rule with delay d. With d = 0 the
response is emitted synchronously inside the call, before
handleInboundPayload returns, and nothing is enqueued. With d positive
nothing is emitted synchronously; the pending response holding d is
enqueued, and running the queue from idle with that enqueue followed by n
ticks has emitted the response exactly when d + 10 is at most 10 n, hence
never before the queue has advanced at least d / 10 ticks (10 n is then at
least d). With d = -1 nothing is ever emitted or enqueued. With any other d
(an invalid configured delay) nothing is emitted or enqueued and the
invalid-processing-delay error is logged. -/
theorem C4_delay_semantics (msgType dstEid : Nat) (r : Rule) (n : Nat) :
    (r.processingDelay = 0 →
      dispatchMatchedRule msgType dstEid 0 false r =
        ⟨[⟨msgType, dstEid, 0, false, r.response⟩], [], false⟩)
  ∧ (0 < r.processingDelay →
      dispatchMatchedRule msgType dstEid 0 false r =
        ⟨[], [⟨r.processingDelay, ⟨msgType, dstEid, 0, false, r.response⟩⟩],
         false⟩
      ∧ (qrun (QEvent.enqueue
            ⟨r.processingDelay, ⟨msgType, dstEid, 0, false, r.response⟩⟩ ::
            List.replicate n .tick)).2 =
          (if r.processingDelay + 10 ≤ 10 * (n : Int)
           then [⟨msgType, dstEid, 0, false, r.response⟩] else [])
      ∧ ((qrun (QEvent.enqueue
            ⟨r.processingDelay, ⟨msgType, dstEid, 0, false, r.response⟩⟩ ::
            List.replicate n .tick)).2 ≠ [] →
          r.processingDelay ≤ 10 * (n : Int)))
  ∧ (r.processingDelay = -1 →
      dispatchMatchedRule msgType dstEid 0 false r = ⟨[], [], false⟩)
  ∧ (r.processingDelay < -1 →
      dispatchMatchedRule msgType dstEid 0 false r = ⟨[], [], true⟩) := by
  refine ⟨?_, ?_, ?_, ?_⟩
  · intro h0
    simp [dispatchMatchedRule, h0]
  · intro hpos
    have hrunEq :
        qrun (QEvent.enqueue
            ⟨r.processingDelay, ⟨msgType, dstEid, 0, false, r.response⟩⟩ ::
            List.replicate n .tick) =
          qrunFrom ⟨[⟨r.processingDelay, ⟨msgType, dstEid, 0, false, r.response⟩⟩],
            false, true⟩ (List.replicate n .tick) := by
      have hfst : qstep initQState (QEvent.enqueue
          ⟨r.processingDelay, ⟨msgType, dstEid, 0, false, r.response⟩⟩) =
          (⟨[⟨r.processingDelay, ⟨msgType, dstEid, 0, false, r.response⟩⟩],
            false, true⟩, []) := rfl
      simp [qrun, qrunFrom, hfst]
    refine ⟨?_, ?_, ?_⟩
    · simp [dispatchMatchedRule, hpos, show r.processingDelay ≠ 0 by omega,
        show r.processingDelay ≠ -1 by omega]
    · rw [hrunEq, qrunFrom_single_pos n r.processingDelay _ hpos]
      by_cases hcond : r.processingDelay + 10 ≤ 10 * (n : Int)
      · rw [if_pos hcond, if_pos hcond]
      · rw [if_neg hcond, if_neg hcond]
    · intro hne
      rw [hrunEq, qrunFrom_single_pos n r.processingDelay _ hpos] at hne
      by_cases hcond : r.processingDelay + 10 ≤ 10 * (n : Int)
      · omega
      · rw [if_neg hcond] at hne
        simp at hne
  · intro hm1
    simp [dispatchMatchedRule, hm1]
  · intro hlt
    simp [dispatchMatchedRule, show r.processingDelay ≠ 0 by omega,
      show r.processingDelay ≠ -1 by omega, show ¬0 < r.processingDelay by omega]

/-- Claim C4 witness: a matched rule with delay 50 is enqueued, not emitted
synchronously; with 6 ticks of the 10-unit timer the response has been
emitted (50 + 10 is at most 60), and an emission within n ticks forces
50 at most 10 n, never fewer than 5 ticks. -/
theorem C4_delay_semantics_witness :
    (0 : Int) < 50 ∧
      (dispatchMatchedRule 1 8 0 false ⟨[2], [170], 50⟩ =
        ⟨[], [⟨50, ⟨1, 8, 0, false, [170]⟩⟩], false⟩
      ∧ (qrun (QEvent.enqueue ⟨50, ⟨1, 8, 0, false, [170]⟩⟩ ::
            List.replicate 6 .tick)).2 =
          (if (50 : Int) + 10 ≤ 10 * ((6 : Nat) : Int)
           then [⟨1, 8, 0, false, [170]⟩] else [])
      ∧ ((qrun (QEvent.enqueue ⟨50, ⟨1, 8, 0, false, [170]⟩⟩ ::
            List.replicate 6 .tick)).2 ≠ [] →
          (50 : Int) ≤ 10 * ((6 : Nat) : Int))) :=
  ⟨by decide, (C4_delay_semantics 1 8 ⟨[2], [170], 50⟩ 6).2.1 (by decide)⟩


/-- The concrete ok outcome of the call processMctpCommand cfgA 8 [1, 2]:
one synchronous emission of the configured response. -/
def outA : CmdOutput := ⟨[⟨1, 8, 0, false, [170]⟩], [], false⟩

/-- Every emission and every enqueued entry produced by the delay dispatch
carries the srcEid, msgTag and tagOwner values it was given. -/
theorem dispatchMatchedRule_fields (msgType srcEid msgTag : Nat)
    (tagOwner : Bool) (r : Rule) :
    (∀ em ∈ (dispatchMatchedRule msgType srcEid msgTag tagOwner r).emitted,
       em.srcEid = srcEid ∧ em.msgTag = msgTag ∧ em.tagOwner = tagOwner)
  ∧ (∀ p ∈ (dispatchMatchedRule msgType srcEid msgTag tagOwner r).enqueued,
       p.emission.srcEid = srcEid ∧ p.emission.msgTag = msgTag ∧
         p.emission.tagOwner = tagOwner) := by
  unfold dispatchMatchedRule
  by_cases h0 : r.processingDelay = 0
  · rw [if_pos h0]
    refine ⟨?_, ?_⟩ <;> intro x hx
    · simp only [List.mem_singleton] at hx
      subst hx
      exact ⟨rfl, rfl, rfl⟩
    · simp at hx
  · rw [if_neg h0]
    by_cases h1 : r.processingDelay = -1
    · rw [if_pos h1]
      refine ⟨?_, ?_⟩ <;> intro x hx <;> simp at hx
    · rw [if_neg h1]
      by_cases h2 : 0 < r.processingDelay
      · rw [if_pos h2]
        refine ⟨?_, ?_⟩ <;> intro x hx
        · simp at hx
        · simp only [List.mem_singleton] at hx
          subst hx
          exact ⟨rfl, rfl, rfl⟩
      · rw [if_neg h2]
        refine ⟨?_, ?_⟩ <;> intro x hx <;> simp at hx

/-- Every emission and every enqueued entry produced by the rule scan
carries the srcEid, msgTag and tagOwner values it was given. -/
theorem scanEntries_fields (msgType srcEid msgTag : Nat) (tagOwner : Bool)
    (reqHeader payload : List Nat) (entries : List RuleEntry) :
    (∀ em ∈ (scanEntries msgType srcEid msgTag tagOwner reqHeader payload
        entries).emitted,
       em.srcEid = srcEid ∧ em.msgTag = msgTag ∧ em.tagOwner = tagOwner)
  ∧ (∀ p ∈ (scanEntries msgType srcEid msgTag tagOwner reqHeader payload
        entries).enqueued,
       p.emission.srcEid = srcEid ∧ p.emission.msgTag = msgTag ∧
         p.emission.tagOwner = tagOwner) := by
  unfold scanEntries
  cases findMatchedRule reqHeader payload entries with
  | none => simp
  | some r => exact dispatchMatchedRule_fields msgType srcEid msgTag tagOwner r

/-- Every ok outcome of processMctpCommand is either the silent empty
outcome or the outcome of a rule scan performed with source endpoint id
equal to the destination endpoint id of the call, message tag 0 and
tag-owner false. -/
theorem processMctpCommand_ok_shape (cfg : Config) (dstEid : Nat)
    (payload : List Nat) (out : CmdOutput)
    (hout : processMctpCommand cfg dstEid payload = .ok out) :
    out = ⟨[], [], false⟩ ∨
    ∃ msgType reqHeader entries,
      out = scanEntries msgType dstEid 0 false reqHeader payload entries := by
  cases payload with
  | nil => simp [processMctpCommand] at hout
  | cons b rest =>
    simp only [processMctpCommand] at hout
    by_cases hg : cfg.good = false
    · rw [if_pos hg] at hout
      left
      exact (Except.ok.inj hout).symm
    · rw [if_neg hg] at hout
      by_cases hv : getMessageType b = "VDPCI"
      · rw [if_pos hv] at hout
        cases hlk : vdpciLookup cfg (b :: rest) with
        | none =>
          rw [hlk] at hout
          left
          exact (Except.ok.inj hout).symm
        | some lk =>
          rw [hlk] at hout
          right
          exact ⟨b, lk.2, lk.1, (Except.ok.inj hout).symm⟩
      · rw [if_neg hv] at hout
        right
        exact ⟨b, [b], cfg.topRules (getMessageType b), (Except.ok.inj hout).symm⟩

/-- The queue machinery only ever emits response data already stored in the
pending collection of the state it steps from. -/
theorem qstep_emissions_from_queue (s : QState) (ev : QEvent) (em : Emission)
    (hem : em ∈ (qstep s ev).2) : ∃ p ∈ s.respQueue, p.emission = em := by
  cases ev with
  | enqueue p =>
    simp only [qstep] at hem
    by_cases ht : s.timerExpired = true
    · rw [if_pos ht] at hem
      simp at hem
    · rw [if_neg ht] at hem
      simp at hem
  | tick =>
    simp only [qstep] at hem
    by_cases hsch : s.scheduled = true
    · rw [if_pos hsch] at hem
      split at hem <;>
      · simp only [List.mem_map] at hem
        obtain ⟨p, hp, hpe⟩ := hem
        exact ⟨p, (List.mem_filter.mp hp).1, hpe⟩
    · rw [if_neg hsch] at hem
      simp at hem
  | tickAborted =>
    simp only [qstep] at hem
    by_cases hsch : s.scheduled = true
    · rw [if_pos hsch] at hem
      simp at hem
    · rw [if_neg hsch] at hem
      simp at hem
  | tickError =>
    simp only [qstep] at hem
    by_cases hsch : s.scheduled = true
    · rw [if_pos hsch] at hem
      simp at hem
    · rw [if_neg hsch] at hem
      simp at hem

/-- Claim C10: every response emitted for an inbound payload carries a
source endpoint id equal to the destination endpoint id of the call, a
message tag of 0 and a tag-owner flag of false; this holds for synchronous
emissions and for enqueued pending responses, and the delayed-delivery
machinery only ever emits data stored in its pending collection, so the
same holds for delayed emissions. -/
theorem C10_response_metadata (cfg : Config) (dstEid : Nat)
    (payload : List Nat) (out : CmdOutput)
    (hout : processMctpCommand cfg dstEid payload = .ok out) :
    (∀ em ∈ out.emitted,
       em.srcEid = dstEid ∧ em.msgTag = 0 ∧ em.tagOwner = false)
  ∧ (∀ p ∈ out.enqueued,
       p.emission.srcEid = dstEid ∧ p.emission.msgTag = 0 ∧
         p.emission.tagOwner = false)
  ∧ (∀ (s : QState) (ev : QEvent) (em : Emission),
       em ∈ (qstep s ev).2 → ∃ p ∈ s.respQueue, p.emission = em) := by
  rcases processMctpCommand_ok_shape cfg dstEid payload out hout with
    hempty | ⟨msgType, reqHeader, entries, hscan⟩
  · subst hempty
    exact ⟨by simp, by simp, qstep_emissions_from_queue⟩
  · subst hscan
    obtain ⟨h1, h2⟩ :=
      scanEntries_fields msgType dstEid 0 false reqHeader payload entries
    exact ⟨h1, h2, qstep_emissions_from_queue⟩

/-- Claim C10 witness: the metadata property evaluated at the concrete call
that matches the PLDM rule of cfgA with destination endpoint id 8 and
emits one synchronous response. -/
theorem C10_response_metadata_witness :
    (∀ em ∈ outA.emitted,
       em.srcEid = 8 ∧ em.msgTag = 0 ∧ em.tagOwner = false)
  ∧ (∀ p ∈ outA.enqueued,
       p.emission.srcEid = 8 ∧ p.emission.msgTag = 0 ∧
         p.emission.tagOwner = false)
  ∧ (∀ (s : QState) (ev : QEvent) (em : Emission),
       em ∈ (qstep s ev).2 → ∃ p ∈ s.respQueue, p.emission = em) :=
  C10_response_metadata cfgA 8 [1, 2] outA rfl
